import Mathlib

/-!
Verification of the contented repository core: session/credential lifecycle
manager and external-API access gateway (src/lib/oauth.ts,
src/lib/youtube-api.ts, src/routes/api/auth/login.ts,
src/routes/api/auth/callback.ts).

The Deno KV store is modelled as an association list with first-match lookup;
a write conses a fresh binding in front (last write wins under lookup) and a
delete removes every binding of the key.  Wall-clock instants (JS Date /
Date.now) are milliseconds since the epoch, modelled as Nat.
-/

namespace Contented

/-- First-match lookup in an association list; models Deno KV get. -/
def alookup (k : String) : List (String × β) → Option β
  | [] => none
  | (k₂, v) :: rest => if k = k₂ then some v else alookup k rest

/-- Models Deno KV set: the new binding shadows older ones under lookup. -/
def kvSet (k : String) (v : β) (l : List (String × β)) : List (String × β) :=
  (k, v) :: l

/-- Models Deno KV delete: removes every binding of the key. -/
def kvDelete (k : String) (l : List (String × β)) : List (String × β) :=
  l.filter (fun p => decide (p.1 ≠ k))

theorem alookup_kvSet_self (k : String) (v : β) (l : List (String × β)) :
    alookup k (kvSet k v l) = some v := by
  simp [alookup, kvSet]

theorem alookup_kvSet_ne (k₂ k : String) (v : β) (l : List (String × β))
    (h : k₂ ≠ k) : alookup k₂ (kvSet k v l) = alookup k₂ l := by
  simp [alookup, kvSet, h]

theorem alookup_kvDelete_self (k : String) (l : List (String × β)) :
    alookup k (kvDelete k l) = none := by
  induction l with
  | nil => rfl
  | cons p rest ih =>
      by_cases h : p.1 = k
      · simpa [kvDelete, h] using ih
      · simpa [kvDelete, alookup, h, Ne.symm h] using ih

theorem alookup_kvDelete_ne (k₂ k : String) (l : List (String × β))
    (h : k₂ ≠ k) : alookup k₂ (kvDelete k l) = alookup k₂ l := by
  induction l with
  | nil => rfl
  | cons p rest ih =>
      by_cases hp : p.1 = k
      · have hne : k₂ ≠ p.1 := by rw [hp]; exact h
        simpa [kvDelete, hp, alookup, hne, h] using ih
      · by_cases hk : k₂ = p.1
        · simp [kvDelete, hp, alookup, hk]
        · simpa [kvDelete, hp, alookup, hk] using ih

/-! ## Cache layer (src/lib/youtube-api.ts lines 85-89, 373-409) -/

/-- CacheEntry of youtube-api.ts lines 85-89. -/
structure CacheEntry (α : Type) where
  data : α
  cachedAt : Nat
  expiresAt : Nat
deriving Repr, DecidableEq

/-- The youtube_cache key space of the Deno KV store. -/
abbrev CacheStore (α : Type) := List (String × CacheEntry α)

/-- getFromCache (youtube-api.ts lines 373-394): a missing key is a miss; an
entry whose expiresAt lies strictly before the current instant is deleted and
reported as a miss; otherwise the entry data is returned.  Returns the result
together with the store after the read. -/
def getFromCache (now : Nat) (store : CacheStore α) (key : String) :
    Option α × CacheStore α :=
  match alookup key store with
  | none => (none, store)
  | some entry =>
      if entry.expiresAt < now then (none, kvDelete key store)
      else (some entry.data, store)

/-- setCache (youtube-api.ts lines 396-409): wraps the data with cachedAt now
and expiresAt now + ttl and writes it under the key. -/
def setCache (now : Nat) (store : CacheStore α) (key : String) (data : α)
    (ttl : Nat) : CacheStore α :=
  kvSet key { data := data, cachedAt := now, expiresAt := now + ttl } store

/-- C4: for every cache key and every read performed after the stored entry
expiresAt timestamp, the read reports a miss (never the stored data) and
deletes the expired entry from the store as part of that read. -/
theorem C4_expired_read_misses_and_deletes (α : Type) (now : Nat)
    (store : CacheStore α) (key : String) (e : CacheEntry α)
    (hfound : alookup key store = some e) (hafter : e.expiresAt < now) :
    (getFromCache now store key).1 = none ∧
      alookup key (getFromCache now store key).2 = none := by
  refine ⟨?_, ?_⟩
  · simp [getFromCache, hfound, hafter]
  · simp [getFromCache, hfound, hafter, alookup_kvDelete_self]

/-- A concrete cache entry used by the C4 witness. -/
def sampleEntry : CacheEntry Nat := { data := 7, cachedAt := 0, expiresAt := 1000 }

/-- Witness for C4 at a concrete store: one entry stored at instant 0 with
expiresAt 1000, read at instant 1001. -/
theorem C4_witness :
    (getFromCache 1001 [("k", sampleEntry)] "k").1 = none ∧
      alookup "k" (getFromCache 1001 [("k", sampleEntry)] "k").2 = none :=
  C4_expired_read_misses_and_deletes Nat 1001 _ "k" sampleEntry (by rfl) (by decide)

/-! ## Session store and token refresh (src/lib/oauth.ts) -/

/-- UserSession of oauth.ts lines 19-27. -/
structure UserSession where
  id : String
  userId : String
  accessToken : String
  refreshToken : String
  tokenExpiresAt : Nat
  createdAt : Nat
  lastAccessed : Nat
deriving Repr, DecidableEq

/-- TokenResponse of oauth.ts lines 11-17 (the fields the session logic
reads). -/
structure TokenResponse where
  access_token : String
  refresh_token : String
  expires_in : Nat
deriving Repr, DecidableEq

/-- The two key spaces the session logic uses: primary records under
key sessions and the per-user secondary index under key user_sessions. -/
structure SessionStore where
  sessions : List (String × UserSession)
  userSessions : List (String × String)
deriving Repr, DecidableEq

/-- storeTokens (oauth.ts lines 116-136).  The random sessionId produced by
crypto.randomUUID is passed in explicitly. -/
def storeTokens (now : Nat) (st : SessionStore) (userId : String)
    (tokens : TokenResponse) (sessionId : String) : SessionStore :=
  let session : UserSession :=
    { id := sessionId, userId := userId, accessToken := tokens.access_token,
      refreshToken := tokens.refresh_token,
      tokenExpiresAt := now + tokens.expires_in * 1000,
      createdAt := now, lastAccessed := now }
  { sessions := kvSet sessionId session st.sessions,
    userSessions := kvSet userId sessionId st.userSessions }

/-- getStoredTokens (oauth.ts lines 138-151): reads the primary record and, on
a hit, stamps lastAccessed and writes the record back. -/
def getStoredTokens (now : Nat) (st : SessionStore) (sessionId : String) :
    Option UserSession × SessionStore :=
  match alookup sessionId st.sessions with
  | none => (none, st)
  | some s =>
      let s₂ := { s with lastAccessed := now }
      (some s₂, { st with sessions := kvSet sessionId s₂ st.sessions })

/-- deleteSession (oauth.ts lines 163-170): looks the session up and, when it
exists, deletes the primary record and the secondary index entry of the
session owner, unconditionally. -/
def deleteSession (now : Nat) (st : SessionStore) (sessionId : String) :
    SessionStore :=
  match getStoredTokens now st sessionId with
  | (none, st₂) => st₂
  | (some s, st₂) =>
      { sessions := kvDelete sessionId st₂.sessions,
        userSessions := kvDelete s.userId st₂.userSessions }

/-- isTokenExpired (oauth.ts lines 172-176): true when the current instant is
within the 5-minute buffer of tokenExpiresAt.  The subtraction is done over
the integers, as JS arithmetic does. -/
def isTokenExpired (now : Nat) (s : UserSession) : Bool :=
  decide ((s.tokenExpiresAt : Int) - (5 * 60 * 1000 : Int) < (now : Int))

/-- ensureValidToken (oauth.ts lines 178-205).  The outcome of the network
refresh (refreshAccessToken) is passed in as refreshOutcome; the error branch
deletes the session and propagates a token-refresh-failed error. -/
def ensureValidToken (now : Nat) (st : SessionStore) (s : UserSession)
    (refreshOutcome : Except String TokenResponse) :
    Except String UserSession × SessionStore :=
  if isTokenExpired now s then
    match refreshOutcome with
    | .ok newTokens =>
        let updated : UserSession :=
          { s with
            accessToken := newTokens.access_token
            refreshToken := newTokens.refresh_token
            tokenExpiresAt := now + newTokens.expires_in * 1000
            lastAccessed := now }
        (.ok updated, { st with sessions := kvSet s.id updated st.sessions })
    | .error e =>
        (.error ("Token refresh failed: " ++ e), deleteSession now st s.id)
  else (.ok s, st)

/-- Concrete expired session used for the C2 scenario. -/
def c2sess : UserSession :=
  { id := "sid1", userId := "u1", accessToken := "a", refreshToken := "r",
    tokenExpiresAt := 0, createdAt := 0, lastAccessed := 0 }

/-- Concrete store holding c2sess and its secondary index entry. -/
def c2store : SessionStore :=
  { sessions := [("sid1", c2sess)], userSessions := [("u1", "sid1")] }

/-- A refresh grant whose token lives only 60 seconds. -/
def c2tokens : TokenResponse :=
  { access_token := "a2", refresh_token := "r2", expires_in := 60 }

/-- C2 counterexample: a stored expired session refreshed with a grant of
expires_in 60 seconds makes ensureValidToken return successfully a session
whose tokenExpiresAt is only 60 seconds after the current instant, less than
the 5 minutes the claim demands, and no error is raised. -/
theorem C2_counterexample :
    alookup "sid1" c2store.sessions = some c2sess ∧
      (ensureValidToken 1000000 c2store c2sess (.ok c2tokens)).1 =
        .ok { c2sess with
              accessToken := "a2"
              refreshToken := "r2"
              tokenExpiresAt := 1060000
              lastAccessed := 1000000 } ∧
      (1060000 : Nat) < 1000000 + 5 * 60 * 1000 := by
  refine ⟨rfl, rfl, by decide⟩

/-- C2 as amended: for every stored session, whenever a performed refresh
grants expires_in of at least 300 seconds, ensureValidToken either returns a
session whose tokenExpiresAt is at least 5 minutes after the current instant,
or raises the token-refresh-failed error, in which case both the primary
record and the secondary index entry of the user have been deleted. -/
theorem C2_ensure_valid_token (now : Nat) (st : SessionStore)
    (s : UserSession) (outcome : Except String TokenResponse)
    (hstored : alookup s.id st.sessions = some s)
    (hgrant : ∀ tr, outcome = .ok tr → 300 ≤ tr.expires_in) :
    (∀ r st₂, ensureValidToken now st s outcome = (.ok r, st₂) →
        now + 5 * 60 * 1000 ≤ r.tokenExpiresAt) ∧
      (∀ e st₂, ensureValidToken now st s outcome = (.error e, st₂) →
        alookup s.id st₂.sessions = none ∧
          alookup s.userId st₂.userSessions = none) := by
  refine ⟨?_, ?_⟩
  · intro r st₂ heq
    by_cases hexp : isTokenExpired now s = true
    · cases outcome with
      | ok tr =>
          have h300 : 300 ≤ tr.expires_in := hgrant tr rfl
          simp only [ensureValidToken, hexp, if_true] at heq
          injection heq with h1 h2
          injection h1 with h1
          subst h1
          show now + 5 * 60 * 1000 ≤ now + tr.expires_in * 1000
          omega
      | error msg =>
          simp only [ensureValidToken, hexp, if_true] at heq
          injection heq with h1 h2
          exact Except.noConfusion h1
    · have hexp₂ : isTokenExpired now s = false := by
        cases h : isTokenExpired now s
        · rfl
        · exact absurd h hexp
      have hbound : now + 5 * 60 * 1000 ≤ s.tokenExpiresAt := by
        simp only [isTokenExpired, decide_eq_true_eq] at hexp₂ ⊢
        have := of_decide_eq_false hexp₂
        omega
      simp only [ensureValidToken, hexp₂, Bool.false_eq_true, if_false] at heq
      injection heq with h1 h2
      injection h1 with h1
      subst h1
      exact hbound
  · intro e st₂ heq
    by_cases hexp : isTokenExpired now s = true
    · cases outcome with
      | ok tr =>
          simp only [ensureValidToken, hexp, if_true] at heq
          injection heq with h1 h2
          exact Except.noConfusion h1
      | error msg =>
          simp only [ensureValidToken, hexp, if_true] at heq
          injection heq with h1 h2
          subst h2
          have hdel : deleteSession now st s.id =
              { sessions := kvDelete s.id
                  (kvSet s.id { s with lastAccessed := now } st.sessions)
                userSessions := kvDelete s.userId st.userSessions } := by
            simp [deleteSession, getStoredTokens, hstored]
          rw [hdel]
          exact ⟨alookup_kvDelete_self _ _, alookup_kvDelete_self _ _⟩
    · have hexp₂ : isTokenExpired now s = false := by
        cases h : isTokenExpired now s
        · rfl
        · exact absurd h hexp
      simp only [ensureValidToken, hexp₂, Bool.false_eq_true, if_false] at heq
      injection heq with h1 h2
      exact Except.noConfusion h1

/-- Witness for C2 as amended: the stored expired session of c2store with a
failing refresh; both records are gone when the error propagates. -/
theorem C2_witness :
    alookup "sid1"
        ((ensureValidToken 1000000 c2store c2sess (.error "boom")).2).sessions
        = none ∧
      alookup "u1"
        ((ensureValidToken 1000000 c2store c2sess
          (.error "boom")).2).userSessions = none :=
  (C2_ensure_valid_token 1000000 c2store c2sess (.error "boom") (by rfl)
      (by intro tr h; cases h)).2
    "Token refresh failed: boom" _ (by rfl)

/-- Session of user u stored under id s1 (older). -/
def sessA : UserSession :=
  { id := "s1", userId := "u", accessToken := "a1", refreshToken := "r1",
    tokenExpiresAt := 0, createdAt := 0, lastAccessed := 0 }

/-- Session of user u stored under id s2 (newer). -/
def sessB : UserSession :=
  { id := "s2", userId := "u", accessToken := "a2", refreshToken := "r2",
    tokenExpiresAt := 0, createdAt := 0, lastAccessed := 0 }

/-- Store where the secondary pointer of user u targets the newer session s2
while the older session s1 is still stored. -/
def st6 : SessionStore :=
  { sessions := [("s1", sessA), ("s2", sessB)],
    userSessions := [("u", "s2")] }

/-- C6 counterexample: deleting the older session s1 also removes the
secondary pointer of user u although that pointer targets the different,
newer session s2; the claim says such a pointer is left unchanged. -/
theorem C6_counterexample :
    alookup "u" st6.userSessions = some "s2" ∧ ("s2" : String) ≠ "s1" ∧
      alookup "u" (deleteSession 0 st6 "s1").userSessions = none := by
  refine ⟨rfl, by decide, rfl⟩

/-- C6 as amended: for every session id present in the store, deleteSession
removes the primary session record and removes the secondary pointer of the
session owner unconditionally — even when that pointer targets a different
(newer) session id for the same user. -/
theorem C6_delete_session (now : Nat) (st : SessionStore) (sid : String)
    (s : UserSession) (hstored : alookup sid st.sessions = some s) :
    alookup sid (deleteSession now st sid).sessions = none ∧
      alookup s.userId (deleteSession now st sid).userSessions = none := by
  have hdel : deleteSession now st sid =
      { sessions := kvDelete sid
          (kvSet sid { s with lastAccessed := now } st.sessions)
        userSessions := kvDelete s.userId st.userSessions } := by
    simp [deleteSession, getStoredTokens, hstored]
  rw [hdel]
  exact ⟨alookup_kvDelete_self _ _, alookup_kvDelete_self _ _⟩

/-- Witness for C6 as amended at the concrete store st6. -/
theorem C6_witness :
    alookup "s1" (deleteSession 0 st6 "s1").sessions = none ∧
      alookup "u" (deleteSession 0 st6 "s1").userSessions = none :=
  C6_delete_session 0 st6 "s1" sessA (by rfl)

/-! ## Quota tracking (src/lib/youtube-api.ts lines 91-95, 411-471) -/

/-- RateLimitInfo of youtube-api.ts lines 91-95. -/
structure RateLimitInfo where
  quotaUsed : Nat
  resetTime : Nat
  requestCount : Nat
deriving Repr, DecidableEq

/-- The api_usage key space: one record per calendar date string. -/
abbrev UsageStore := List (String × RateLimitInfo)

/-- The per-endpoint quota cost estimate of trackAPIUsage
(youtube-api.ts lines 446-458). -/
def quotaCost (endpoint : String) : Nat :=
  if endpoint = "subscriptions" then 1
  else if endpoint = "search" then 100
  else if endpoint = "videos" then 1
  else 1

/-- trackAPIUsage (youtube-api.ts lines 434-471): reads the record of the
current date (today, derived from the clock), defaulting to a zero record
whose resetTime is 24 hours ahead, adds the endpoint cost to quotaUsed,
increments requestCount, and writes the record back under the date key. -/
def trackAPIUsage (now : Nat) (endpoint : String) (today : String)
    (store : UsageStore) : UsageStore :=
  let current := (alookup today store).getD
    { quotaUsed := 0, resetTime := now + 24 * 60 * 60 * 1000, requestCount := 0 }
  kvSet today
    { quotaUsed := current.quotaUsed + quotaCost endpoint
      resetTime := current.resetTime
      requestCount := current.requestCount + 1 } store

/-- N successive successful calls of the same endpoint, each recording its
usage (the loop the spec quantifies over). -/
def trackRepeat (now : Nat) (endpoint : String) (today : String) :
    Nat → UsageStore → UsageStore
  | 0, store => store
  | n + 1, store =>
      trackRepeat now endpoint today n (trackAPIUsage now endpoint today store)

/-- The quota recorded for a date (0 when no record exists). -/
def quotaUsedOn (store : UsageStore) (d : String) : Nat :=
  ((alookup d store).getD { quotaUsed := 0, resetTime := 0, requestCount := 0 }).quotaUsed

/-- The request count recorded for a date (0 when no record exists). -/
def requestCountOn (store : UsageStore) (d : String) : Nat :=
  ((alookup d store).getD { quotaUsed := 0, resetTime := 0, requestCount := 0 }).requestCount

theorem trackAPIUsage_other (now : Nat) (ep today d : String)
    (store : UsageStore) (h : d ≠ today) :
    alookup d (trackAPIUsage now ep today store) = alookup d store := by
  simp only [trackAPIUsage]
  exact alookup_kvSet_ne d today _ store h

theorem trackRepeat_other (now : Nat) (ep today d : String) (h : d ≠ today) :
    ∀ (n : Nat) (store : UsageStore),
      alookup d (trackRepeat now ep today n store) = alookup d store := by
  intro n
  induction n with
  | zero => intro store; rfl
  | succ m ih =>
      intro store
      rw [trackRepeat, ih, trackAPIUsage_other now ep today d store h]

theorem trackRepeat_lookup (now : Nat) (ep today : String) :
    ∀ (n : Nat) (store : UsageStore) (r : RateLimitInfo),
      alookup today store = some r →
      alookup today (trackRepeat now ep today n store) =
        some { quotaUsed := r.quotaUsed + n * quotaCost ep
               resetTime := r.resetTime
               requestCount := r.requestCount + n } := by
  intro n
  induction n with
  | zero => intro store r h; simpa using h
  | succ m ih =>
      intro store r h
      rw [trackRepeat]
      have hstep : alookup today (trackAPIUsage now ep today store) =
          some { quotaUsed := r.quotaUsed + quotaCost ep
                 resetTime := r.resetTime
                 requestCount := r.requestCount + 1 } := by
        simp [trackAPIUsage, h, kvSet, alookup]
      rw [ih _ _ hstep]
      congr 1
      have h₁ : r.quotaUsed + quotaCost ep + m * quotaCost ep =
          r.quotaUsed + (m + 1) * quotaCost ep := by ring
      have h₂ : r.requestCount + 1 + m = r.requestCount + (m + 1) := by ring
      rw [h₁, h₂]

/-- C7: starting from a day with no usage record, N successful calls of one
endpoint kind leave quotaUsed at N times the fixed cost of that kind
(subscriptions 1, search 100, videos 1) and requestCount at N, and the record
of every other date is untouched. -/
theorem C7_usage_accumulation (now : Nat) (ep today : String) (n : Nat)
    (store : UsageStore) (hempty : alookup today store = none) :
    quotaUsedOn (trackRepeat now ep today n store) today = n * quotaCost ep ∧
      requestCountOn (trackRepeat now ep today n store) today = n ∧
      (∀ d, d ≠ today →
        alookup d (trackRepeat now ep today n store) = alookup d store) ∧
      quotaCost "subscriptions" = 1 ∧ quotaCost "search" = 100 ∧
      quotaCost "videos" = 1 := by
  refine ⟨?_, ?_, ?_, rfl, rfl, rfl⟩
  · cases n with
    | zero => simp [trackRepeat, quotaUsedOn, hempty]
    | succ m =>
        rw [trackRepeat]
        have hstep : alookup today (trackAPIUsage now ep today store) =
            some { quotaUsed := 0 + quotaCost ep
                   resetTime := now + 24 * 60 * 60 * 1000
                   requestCount := 0 + 1 } := by
          simp [trackAPIUsage, hempty, kvSet, alookup]
        rw [quotaUsedOn, trackRepeat_lookup now ep today m _ _ hstep]
        simp [Option.getD]
        ring
  · cases n with
    | zero => simp [trackRepeat, requestCountOn, hempty]
    | succ m =>
        rw [trackRepeat]
        have hstep : alookup today (trackAPIUsage now ep today store) =
            some { quotaUsed := 0 + quotaCost ep
                   resetTime := now + 24 * 60 * 60 * 1000
                   requestCount := 0 + 1 } := by
          simp [trackAPIUsage, hempty, kvSet, alookup]
        rw [requestCountOn, trackRepeat_lookup now ep today m _ _ hstep]
        simp [Option.getD]
        ring
  · intro d hd
    exact trackRepeat_other now ep today d hd n store

/-- Witness for C7: 3 search calls recorded on 2026-10-11 from an empty store
yield quotaUsed 300 and requestCount 3, and the record of 2026-10-12 stays
absent. -/
theorem C7_witness :
    quotaUsedOn (trackRepeat 0 "search" "2026-10-11" 3 []) "2026-10-11" =
        3 * quotaCost "search" ∧
      requestCountOn (trackRepeat 0 "search" "2026-10-11" 3 []) "2026-10-11" = 3 ∧
      (∀ d, d ≠ "2026-10-11" →
        alookup d (trackRepeat 0 "search" "2026-10-11" 3 []) =
          alookup d ([] : UsageStore)) ∧
      quotaCost "subscriptions" = 1 ∧ quotaCost "search" = 100 ∧
      quotaCost "videos" = 1 :=
  C7_usage_accumulation 0 "search" "2026-10-11" 3 [] (by rfl)

/-! ## Rate-limit pre-check (src/lib/youtube-api.ts lines 9-13, 411-432) -/

/-- A JS Error as the gateway observes it: message plus the optional
YouTubeAPIError fields (youtube-api.ts lines 9-13).  A plain new Error
leaves status and code unset and quotaExceeded false (undefined). -/
structure JsError where
  message : String
  status : Option Nat := none
  code : Option String := none
  quotaExceeded : Bool := false
deriving Repr, DecidableEq

/-- The KV state touched by rate limiting and usage recording: the single
record under the key rate_limit, youtube_api, and the per-date records under
api_usage. -/
structure QuotaState where
  rateLimit : Option RateLimitInfo
  apiUsage : UsageStore
deriving Repr, DecidableEq

/-- checkRateLimit (youtube-api.ts lines 414-426): reads the record at the
key rate_limit, youtube_api and throws a plain Error when its quotaUsed
exceeds 9000; a missing record lets the call proceed. -/
def checkRateLimit (st : QuotaState) : Except JsError Unit :=
  match st.rateLimit with
  | some info =>
      if 9000 < info.quotaUsed then
        .error { message := "Approaching daily quota limit" }
      else .ok ()
  | none => .ok ()

/-- trackAPIUsage acting on the full quota state: it writes only the
api_usage record of the current date (youtube-api.ts line 437), never the
rate_limit record that checkRateLimit reads (line 415). -/
def trackAPIUsageQ (now : Nat) (endpoint today : String) (st : QuotaState) :
    QuotaState :=
  { st with apiUsage := trackAPIUsage now endpoint today st.apiUsage }

/-- N successive recorded calls on the full quota state. -/
def trackRepeatQ (now : Nat) (endpoint today : String) :
    Nat → QuotaState → QuotaState
  | 0, st => st
  | n + 1, st =>
      trackRepeatQ now endpoint today n (trackAPIUsageQ now endpoint today st)

/-- The quota state of a fresh deployment: no record under either key.  No
code in the repository ever writes the rate_limit, youtube_api key. -/
def freshQuota : QuotaState := { rateLimit := none, apiUsage := [] }

/-- C1, code-bug evidence.  The claim says a cache-miss read compares the
daily total written by usage recording against the 9000-unit threshold and
refuses with an error marked quota-exceeded.  The code does not: (a) usage
recording never writes the rate_limit record that checkRateLimit reads, for
any number of recorded calls; (b) concretely, after 95 recorded search calls
the api_usage record of the day holds quotaUsed 9500, over the threshold, yet
checkRateLimit lets the upstream call proceed; (c) even when the guard does
fire, the error it throws carries quotaExceeded false. -/
theorem C1_quota_precheck_never_sees_usage :
    (∀ (now : Nat) (ep today : String) (n : Nat) (st : QuotaState),
        (trackRepeatQ now ep today n st).rateLimit = st.rateLimit) ∧
      quotaUsedOn (trackRepeatQ 0 "search" "2026-10-11" 95 freshQuota).apiUsage
          "2026-10-11" = 9500 ∧
      9000 < 9500 ∧
      checkRateLimit (trackRepeatQ 0 "search" "2026-10-11" 95 freshQuota) =
        .ok () ∧
      (∀ (st : QuotaState) (e : JsError), checkRateLimit st = .error e →
        e.quotaExceeded = false) := by
  refine ⟨?_, by decide, by decide, ?_, ?_⟩
  · intro now ep today n
    induction n with
    | zero => intro st; rfl
    | succ m ih => intro st; rw [trackRepeatQ, ih]; rfl
  · have hrl : (trackRepeatQ 0 "search" "2026-10-11" 95 freshQuota).rateLimit =
        none := by decide
    simp [checkRateLimit, hrl]
  · intro st e he
    match hm : st.rateLimit with
    | none => simp [checkRateLimit, hm] at he
    | some info =>
        by_cases hq : 9000 < info.quotaUsed
        · simp only [checkRateLimit, hm, hq, if_true, Except.error.injEq] at he
          rw [← he]
        · simp [checkRateLimit, hm, hq] at he

/-- A quota state whose rate_limit record is over threshold, the only state
in which the guard fires. -/
def overQuota : QuotaState :=
  { rateLimit := some { quotaUsed := 9500, resetTime := 0, requestCount := 0 }
    apiUsage := [] }

/-- Witness for C1: the error the guard throws in the one state where it does
fire carries quotaExceeded false. -/
theorem C1_witness :
    ({ message := "Approaching daily quota limit" } : JsError).quotaExceeded =
      false :=
  C1_quota_precheck_never_sees_usage.2.2.2.2 overQuota
    { message := "Approaching daily quota limit" } (by rfl)

/-! ## CSRF state issue and redemption (src/routes/api/auth/login.ts lines
33-40, src/routes/api/auth/callback.ts lines 38-52) -/

/-- The oauth_states record: createdAt and the used flag. -/
structure StateRecord where
  createdAt : Nat
  used : Bool
deriving Repr, DecidableEq

/-- The oauth_states key space.  Each binding carries the optional KV
expiry instant (Deno KV expireIn); none means the binding never expires. -/
abbrev StateStore := List (String × (StateRecord × Option Nat))

/-- A Deno KV get at a given instant: a binding whose expiry instant has been
reached is no longer visible. -/
def kvGetAt (now : Nat) (store : StateStore) (k : String) :
    Option StateRecord :=
  match alookup k store with
  | none => none
  | some (v, none) => some v
  | some (v, some exp) => if now < exp then some v else none

/-- The login handler state write (login.ts lines 37-40): a fresh record,
used false, stored with a 10-minute expireIn. -/
def loginIssueState (now : Nat) (store : StateStore) (state : String) :
    StateStore :=
  kvSet state ({ createdAt := now, used := false }, some (now + 10 * 60 * 1000))
    store

/-- The callback redemption (callback.ts lines 38-52): a missing or used
record is rejected with a 400 response; otherwise the record is rewritten
with used true — and with no expireIn, so the used marker never expires.
Returns whether the redemption was accepted, with the store after it. -/
def callbackRedeem (now : Nat) (store : StateStore) (state : String) :
    Bool × StateStore :=
  match kvGetAt now store state with
  | none => (false, store)
  | some sd =>
      if sd.used then (false, store)
      else (true, kvSet state ({ sd with used := true }, none) store)

/-- C3 counterexample: a state issued at instant 0 and first redeemed 11
minutes later is rejected (the record expired after 10 minutes), so the first
redemption of an issued state does not always succeed as the claim states. -/
theorem C3_counterexample :
    (callbackRedeem 660000 (loginIssueState 0 [] "st1") "st1").1 = false := by
  decide

/-- C3 as amended: a first redemption within the 10-minute lifetime of the
state succeeds (found, verified unused, marked used), and because the used
marker is rewritten without an expiry, every subsequent redemption attempt
with the same value is rejected with a 400 response, regardless of elapsed
time; a rejected attempt also leaves the store unchanged, so all later
attempts fail alike. -/
theorem C3_single_redemption (store : StateStore) (v : String)
    (t₀ t₁ : Nat) (hwithin : t₁ < t₀ + 10 * 60 * 1000) :
    (callbackRedeem t₁ (loginIssueState t₀ store v) v).1 = true ∧
      (∀ t₂, callbackRedeem t₂
          (callbackRedeem t₁ (loginIssueState t₀ store v) v).2 v =
        (false, (callbackRedeem t₁ (loginIssueState t₀ store v) v).2)) := by
  have hget : kvGetAt t₁ (loginIssueState t₀ store v) v =
      some { createdAt := t₀, used := false } := by
    simp [kvGetAt, loginIssueState, alookup_kvSet_self, hwithin]
  have hred : callbackRedeem t₁ (loginIssueState t₀ store v) v =
      (true, kvSet v ({ createdAt := t₀, used := true }, none)
        (loginIssueState t₀ store v)) := by
    simp [callbackRedeem, hget]
  refine ⟨by rw [hred], ?_⟩
  intro t₂
  rw [hred]
  have hget₂ : kvGetAt t₂
      (kvSet v ({ createdAt := t₀, used := true }, none)
        (loginIssueState t₀ store v)) v =
      some { createdAt := t₀, used := true } := by
    simp [kvGetAt, alookup_kvSet_self]
  simp [callbackRedeem, hget₂]

/-- Witness for C3 as amended: issue at instant 0, redeem at 1000, then try
again much later (a year on); the second attempt is rejected. -/
theorem C3_witness :
    (callbackRedeem 1000 (loginIssueState 0 [] "st1") "st1").1 = true ∧
      callbackRedeem 32000000000
          (callbackRedeem 1000 (loginIssueState 0 [] "st1") "st1").2 "st1" =
        (false, (callbackRedeem 1000 (loginIssueState 0 [] "st1") "st1").2) :=
  ⟨(C3_single_redemption [] "st1" 0 1000 (by decide)).1,
    (C3_single_redemption [] "st1" 0 1000 (by decide)).2 32000000000⟩

/-! ## Cache fingerprints and the token digest (src/lib/youtube-api.ts
lines 116, 163, 227, 476-484) -/

/-- The hex digit character that Number.toString(16) produces for n below
16: 0-9 then lowercase a-f. -/
def hexDigit (n : Nat) : Char :=
  if n < 10 then Char.ofNat (48 + n) else Char.ofNat (87 + n)

/-- The two hex characters of one byte, as produced by
b.toString(16).padStart(2, the zero digit) for b below 256. -/
def byteHexChars (b : Nat) : List Char :=
  [hexDigit (b / 16), hexDigit (b % 16)]

/-- The concatenation Array.from(data).map(hex).join() of hashToken, over
the UTF-8 byte list that TextEncoder.encode produces from the token. -/
def tokenHexChars : List Nat → List Char
  | [] => []
  | b :: rest => byteHexChars b ++ tokenHexChars rest

/-- hashToken (youtube-api.ts lines 476-484): the first 16 hex characters of
the UTF-8 byte encoding of the token, so only the first 8 bytes of the token
contribute. -/
def hashToken (tokenBytes : List Nat) : String :=
  String.mk ((tokenHexChars tokenBytes).take 16)

/-- The JS expression pageToken || first: a missing or empty page token
falls back to the literal first (empty strings are falsy). -/
def pageTokenOr (pageToken : Option String) : String :=
  match pageToken with
  | some p => if p = "" then "first" else p
  | none => "first"

/-- The cache fingerprint computed by getSubscriptions
(youtube-api.ts line 116). -/
def subscriptionsCacheKey (tokenBytes : List Nat) (maxResults : Nat)
    (pageToken : Option String) : String :=
  "subscriptions:" ++ hashToken tokenBytes ++ ":" ++ pageTokenOr pageToken ++
    ":" ++ toString maxResults

/-- The cache fingerprint computed by getChannelVideos
(youtube-api.ts line 163).  The method receives the access token (line 157)
but builds the fingerprint without it; publishedAfter is rendered as its ISO
string when present, the literal all otherwise. -/
def channelVideosCacheKey (tokenBytes : List Nat) (channelId : String)
    (maxResults : Nat) (pageToken : Option String)
    (publishedAfterIso : Option String) : String :=
  "channel_videos:" ++ channelId ++ ":" ++ pageTokenOr pageToken ++ ":" ++
    toString maxResults ++ ":" ++
    (match publishedAfterIso with | some i => i | none => "all")

theorem data_append_str (a b : String) : (a ++ b).data = a.data ++ b.data := by
  cases a
  cases b
  rfl

theorem append_cancel_l {α : Type} :
    ∀ (c a b : List α), c ++ a = c ++ b → a = b := by
  intro c
  induction c with
  | nil => intro a b h; simpa using h
  | cons x xs ih =>
      intro a b h
      simp only [List.cons_append, List.cons.injEq] at h
      exact ih a b h.2

theorem append_cancel_r {α : Type} :
    ∀ (a b c : List α), a ++ c = b ++ c → a = b := by
  intro a b c h
  have hl : a.length = b.length := by
    have := congrArg List.length h
    simp only [List.length_append] at this
    omega
  exact (List.append_inj h hl).1

theorem hexDigit_inj : ∀ x < 16, ∀ y < 16, hexDigit x = hexDigit y → x = y := by
  decide

theorem tokenHexChars_take :
    ∀ (n : Nat) (t : List Nat),
      (tokenHexChars t).take (2 * n) = tokenHexChars (t.take n) := by
  intro n t
  induction t generalizing n with
  | nil => simp [tokenHexChars]
  | cons a r ih =>
      cases n with
      | zero => simp [tokenHexChars]
      | succ m =>
          have h2 : 2 * (m + 1) = 2 * m + 1 + 1 := by ring
          rw [h2]
          simp only [tokenHexChars, byteHexChars, List.cons_append,
            List.nil_append, List.take_succ_cons]
          rw [ih m]

theorem tokenHexChars_injOn :
    ∀ (t₁ t₂ : List Nat), (∀ b ∈ t₁, b < 256) → (∀ b ∈ t₂, b < 256) →
      tokenHexChars t₁ = tokenHexChars t₂ → t₁ = t₂ := by
  intro t₁
  induction t₁ with
  | nil =>
      intro t₂ h₁ h₂ heq
      cases t₂ with
      | nil => rfl
      | cons b r => exact absurd heq (by simp [tokenHexChars, byteHexChars])
  | cons a r ih =>
      intro t₂ h₁ h₂ heq
      cases t₂ with
      | nil => exact absurd heq (by simp [tokenHexChars, byteHexChars])
      | cons b r₂ =>
          simp only [tokenHexChars, byteHexChars, List.cons_append,
            List.nil_append, List.cons.injEq] at heq
          obtain ⟨hhi, hlo, hrest⟩ := heq
          have ha : a < 256 := h₁ a (by simp)
          have hb : b < 256 := h₂ b (by simp)
          have hdiv : a / 16 = b / 16 :=
            hexDigit_inj (a / 16) (by omega) (b / 16) (by omega) hhi
          have hmod : a % 16 = b % 16 :=
            hexDigit_inj (a % 16) (by omega) (b % 16) (by omega) hlo
          have hab : a = b := by omega
          have hr : r = r₂ :=
            ih r₂ (fun x hx => h₁ x (by simp [hx]))
              (fun x hx => h₂ x (by simp [hx])) hrest
          rw [hab, hr]

/-- C5 counterexample: two distinct access tokens (UTF-8 bytes 97 and 98,
the letters a and b) produce the identical channel-video fingerprint for an
otherwise identical request, because that fingerprint is built without any
token-derived component. -/
theorem C5_counterexample :
    ([97] : List Nat) ≠ [98] ∧
      channelVideosCacheKey [97] "UC1" 25 none none =
        channelVideosCacheKey [98] "UC1" 25 none none :=
  ⟨by decide, rfl⟩

/-! ## Video detail lookup and multi-channel batching
(src/lib/youtube-api.ts lines 208-310) -/

/-- Lexicographic comparison of UTF-16 code points, the default comparator
of Array.sort in JS. -/
def charListLe : List Char → List Char → Bool
  | [], _ => true
  | _ :: _, [] => false
  | a :: as, b :: bs =>
      if a.toNat < b.toNat then true
      else if b.toNat < a.toNat then false
      else charListLe as bs

/-- String comparison backing the comparator-less batch.sort() call. -/
def strLeB (a b : String) : Bool := charListLe a.data b.data

/-- batch.sort() of youtube-api.ts line 227: the default lexicographic
sort. -/
def sortStrings (l : List String) : List String :=
  l.insertionSort (fun a b => strLeB a b = true)

/-- Fuel-driven worker for the chunking loop; the fuel is the list length,
always sufficient. -/
def chunksOfB (n : Nat) : Nat → List α → List (List α)
  | _, [] => []
  | 0, l => [l]
  | fuel + 1, a :: rest => (a :: rest.take n) :: chunksOfB n fuel (rest.drop n)

/-- The chunking loop of getVideoDetails (youtube-api.ts lines 217-222) and
batchGetChannelVideos (lines 272-277): successive slices of n + 1 elements
(slice i to i + batchSize with batchSize n + 1). -/
def chunksOf (n : Nat) (l : List α) : List (List α) := chunksOfB n l.length l

/-- Concatenation of a list of lists (the allResults.push loop). -/
def concatAll : List (List α) → List α
  | [] => []
  | l :: ls => l ++ concatAll ls

theorem chunksOfB_fuel (n : Nat) :
    ∀ (f₁ f₂ : Nat) (l : List α), l.length ≤ f₁ → l.length ≤ f₂ →
      chunksOfB n f₁ l = chunksOfB n f₂ l := by
  intro f₁
  induction f₁ with
  | zero =>
      intro f₂ l h₁ h₂
      cases l with
      | nil => cases f₂ <;> rfl
      | cons a r => simp at h₁
  | succ m ih =>
      intro f₂ l h₁ h₂
      cases l with
      | nil => cases f₂ <;> rfl
      | cons a r =>
          cases f₂ with
          | zero => simp at h₂
          | succ g =>
              simp only [chunksOfB]
              congr 1
              apply ih
              · simp only [List.length_drop]
                simp only [List.length_cons] at h₁
                omega
              · simp only [List.length_drop]
                simp only [List.length_cons] at h₂
                omega

theorem chunksOf_cons (n : Nat) (a : α) (r : List α) :
    chunksOf n (a :: r) = (a :: r.take n) :: chunksOf n (r.drop n) := by
  show chunksOfB n (r.length + 1) (a :: r) = _
  simp only [chunksOfB]
  congr 1
  apply chunksOfB_fuel
  · simp only [List.length_drop]
    omega
  · exact le_rfl

theorem chunksOf_concat (n : Nat) (l : List α) :
    concatAll (chunksOf n l) = l := by
  have H : ∀ (k : Nat) (l : List α), l.length ≤ k →
      concatAll (chunksOf n l) = l := by
    intro k
    induction k with
    | zero =>
        intro l h
        cases l with
        | nil => rfl
        | cons a r => simp at h
    | succ m ih =>
        intro l h
        cases l with
        | nil => rfl
        | cons a r =>
            rw [chunksOf_cons, concatAll]
            rw [ih (r.drop n) (by
              simp only [List.length_drop]
              simp only [List.length_cons] at h
              omega)]
            simp [List.take_append_drop]
  exact H l.length l le_rfl

theorem chunksOf_bounds (n : Nat) (l : List α) :
    ∀ c ∈ chunksOf n l, c.length ≤ n + 1 ∧ c ≠ [] := by
  have H : ∀ (k : Nat) (l : List α), l.length ≤ k →
      ∀ c ∈ chunksOf n l, c.length ≤ n + 1 ∧ c ≠ [] := by
    intro k
    induction k with
    | zero =>
        intro l h c hc
        cases l with
        | nil => simp [chunksOf, chunksOfB] at hc
        | cons a r => simp at h
    | succ m ih =>
        intro l h c hc
        cases l with
        | nil => simp [chunksOf, chunksOfB] at hc
        | cons a r =>
            rw [chunksOf_cons] at hc
            rcases List.mem_cons.mp hc with hc | hc
            · subst hc
              refine ⟨?_, by simp⟩
              have := List.length_take_le n r
              simp only [List.length_cons]
              omega
            · exact ih (r.drop n) (by
                simp only [List.length_drop]
                simp only [List.length_cons] at h
                omega) c hc
  exact H l.length l le_rfl

/-- The cache fingerprint of one chunk of getVideoDetails
(youtube-api.ts line 227); batch.sort() also reorders the ids the upstream
call receives, since sort mutates the array in place. -/
def videoDetailsChunkKey (batch : List String) : String :=
  "video_details:" ++ String.intercalate "," (sortStrings batch)

/-- The video-detail fingerprint as computed inside getVideoDetails, which
receives the access token (youtube-api.ts line 209) but builds the key of
line 227 without it — the phantom token parameter mirrors the method
signature, as for channelVideosCacheKey. -/
def videoDetailsFingerprint (tokenBytes : List Nat) (batch : List String) :
    String :=
  "video_details:" ++ String.intercalate "," (sortStrings batch)

/-- C5 as amended: only the subscriptions fingerprint carries a token-derived
identifier — the first 16 hex characters of the UTF-8 byte encoding of the
token, never the literal token — and two tokens that differ within their
first 8 bytes yield distinct subscriptions fingerprints; the channel-video
and video-detail fingerprints are built from request parameters only, so any
two tokens yield the identical fingerprint there for otherwise identical
requests; and tokens agreeing on their first 8 bytes collide even on the
subscriptions fingerprint. -/
theorem C5_fingerprints :
    (∀ (t₁ t₂ : List Nat), (∀ b ∈ t₁, b < 256) → (∀ b ∈ t₂, b < 256) →
      t₁.take 8 ≠ t₂.take 8 → ∀ (mr : Nat) (pt : Option String),
        subscriptionsCacheKey t₁ mr pt ≠ subscriptionsCacheKey t₂ mr pt) ∧
      (∀ (t₁ t₂ : List Nat) (cid : String) (mr : Nat)
        (pt pa : Option String),
        channelVideosCacheKey t₁ cid mr pt pa =
          channelVideosCacheKey t₂ cid mr pt pa) ∧
      (∀ (t₁ t₂ : List Nat) (batch : List String),
        videoDetailsFingerprint t₁ batch =
          videoDetailsFingerprint t₂ batch) ∧
      (∀ (t₁ t₂ : List Nat), t₁.take 8 = t₂.take 8 →
        ∀ (mr : Nat) (pt : Option String),
          subscriptionsCacheKey t₁ mr pt = subscriptionsCacheKey t₂ mr pt) := by
  refine ⟨?_, ?_, ?_, ?_⟩
  · intro t₁ t₂ h₁ h₂ hne mr pt heq
    apply hne
    have hd := congrArg String.data heq
    simp only [subscriptionsCacheKey, data_append_str, List.append_assoc]
      at hd
    have hd₂ := append_cancel_l _ _ _ hd
    have hd₃ := append_cancel_r _ _ _
      (by simpa only [← List.append_assoc] using hd₂)
    have hd₄ := append_cancel_r _ _ _ hd₃
    have hd₅ := append_cancel_r _ _ _ hd₄
    have hd₆ := append_cancel_r _ _ _ hd₅
    have hhash : (tokenHexChars t₁).take 16 = (tokenHexChars t₂).take 16 :=
      hd₆
    have h16 : (2 : Nat) * 8 = 16 := by norm_num
    rw [← h16, tokenHexChars_take, tokenHexChars_take] at hhash
    exact tokenHexChars_injOn _ _
      (fun x hx => h₁ x (List.take_subset 8 t₁ hx))
      (fun x hx => h₂ x (List.take_subset 8 t₂ hx)) hhash
  · intro t₁ t₂ cid mr pt pa
    rfl
  · intro t₁ t₂ batch
    rfl
  · intro t₁ t₂ h mr pt
    have hh : hashToken t₁ = hashToken t₂ := by
      unfold hashToken
      rw [show (16 : Nat) = 2 * 8 by norm_num]
      rw [tokenHexChars_take, tokenHexChars_take, h]
    simp [subscriptionsCacheKey, hh]

/-- Witness for C5 as amended: the byte-97 and byte-98 tokens differ in
their first 8 bytes, so their subscriptions fingerprints differ. -/
theorem C5_witness :
    subscriptionsCacheKey [97] 50 none ≠ subscriptionsCacheKey [98] 50 none :=
  C5_fingerprints.1 [97] [98] (by decide) (by decide) (by decide) 50 none

/-- The TTL applied to video caches (youtube-api.ts line 102). -/
def videosCacheTTL : Nat := 10 * 60 * 1000

/-- The KV state getVideoDetails touches, plus the trace of upstream HTTP
calls it issues (each recorded as the id list of the request). -/
structure ApiState where
  cache : CacheStore (List String)
  usage : UsageStore
  calls : List (List String)
deriving Repr, DecidableEq

/-- The per-chunk loop of getVideoDetails (youtube-api.ts lines 226-255):
check the cache under the chunk key; on a miss call upstream with the sorted
chunk, cache the response under the chunk key with the videos TTL, and record
the usage of one videos call; accumulate the items of every chunk in order.
The upstream responses are abstracted as the item lists a successful fetch
returns. -/
def processBatches (upstream : List String → List String) (now : Nat)
    (today : String) : List (List String) → ApiState → List String × ApiState
  | [], st => ([], st)
  | batch :: rest, st =>
      match getFromCache now st.cache (videoDetailsChunkKey batch) with
      | (some data, cache₂) =>
          let r := processBatches upstream now today rest
            { st with cache := cache₂ }
          (data ++ r.1, r.2)
      | (none, cache₂) =>
          let r := processBatches upstream now today rest
            { cache := setCache now cache₂ (videoDetailsChunkKey batch)
                (upstream (sortStrings batch)) videosCacheTTL
              usage := trackAPIUsage now "videos" today st.usage
              calls := st.calls ++ [sortStrings batch] }
          (upstream (sortStrings batch) ++ r.1, r.2)

/-- getVideoDetails (youtube-api.ts lines 208-258): an empty id list returns
the empty item list at once; otherwise the ids are chunked into slices of 50
and each chunk is processed by the loop above. -/
def getVideoDetails (upstream : List String → List String) (now : Nat)
    (today : String) (videoIds : List String) (st : ApiState) :
    List String × ApiState :=
  if videoIds = [] then ([], st)
  else processBatches upstream now today (chunksOf 49 videoIds) st

theorem processBatches_spec (upstream : List String → List String)
    (now : Nat) (today : String) :
    ∀ (batches : List (List String)) (st : ApiState),
      (batches.map videoDetailsChunkKey).Nodup →
      (∀ b ∈ batches, alookup (videoDetailsChunkKey b) st.cache = none) →
      (processBatches upstream now today batches st).1 =
          concatAll (batches.map (fun b => upstream (sortStrings b))) ∧
        (processBatches upstream now today batches st).2.calls =
          st.calls ++ batches.map sortStrings ∧
        (processBatches upstream now today batches st).2.usage =
          trackRepeat now "videos" today batches.length st.usage ∧
        (∀ b ∈ batches,
          alookup (videoDetailsChunkKey b)
              (processBatches upstream now today batches st).2.cache =
            some { data := upstream (sortStrings b), cachedAt := now,
                   expiresAt := now + videosCacheTTL }) ∧
        (∀ k, (∀ b ∈ batches, k ≠ videoDetailsChunkKey b) →
          alookup k (processBatches upstream now today batches st).2.cache =
            alookup k st.cache) := by
  intro batches
  induction batches with
  | nil =>
      intro st hnd hmiss
      exact ⟨rfl, by simp [processBatches], rfl, by simp,
        fun k hk => rfl⟩
  | cons b bs ih =>
      intro st hnd hmiss
      have hmb : alookup (videoDetailsChunkKey b) st.cache = none :=
        hmiss b (by simp)
      have hget : getFromCache now st.cache (videoDetailsChunkKey b) =
          (none, st.cache) := by
        simp [getFromCache, hmb]
      have hstep : processBatches upstream now today (b :: bs) st =
          (upstream (sortStrings b) ++
              (processBatches upstream now today bs
                { cache := setCache now st.cache (videoDetailsChunkKey b)
                    (upstream (sortStrings b)) videosCacheTTL
                  usage := trackAPIUsage now "videos" today st.usage
                  calls := st.calls ++ [sortStrings b] }).1,
            (processBatches upstream now today bs
                { cache := setCache now st.cache (videoDetailsChunkKey b)
                    (upstream (sortStrings b)) videosCacheTTL
                  usage := trackAPIUsage now "videos" today st.usage
                  calls := st.calls ++ [sortStrings b] }).2) := by
        simp only [processBatches, hget]
      have hnotmem : videoDetailsChunkKey b ∉ bs.map videoDetailsChunkKey :=
        (List.nodup_cons.mp (by simpa using hnd)).1
      have hnd₂ : (bs.map videoDetailsChunkKey).Nodup :=
        (List.nodup_cons.mp (by simpa using hnd)).2
      have hdiff : ∀ b₂ ∈ bs,
          videoDetailsChunkKey b₂ ≠ videoDetailsChunkKey b := by
        intro b₂ hb₂ habs
        exact hnotmem (habs ▸ List.mem_map_of_mem videoDetailsChunkKey hb₂)
      have hmiss₂ : ∀ b₂ ∈ bs, alookup (videoDetailsChunkKey b₂)
          (setCache now st.cache (videoDetailsChunkKey b)
            (upstream (sortStrings b)) videosCacheTTL) = none := by
        intro b₂ hb₂
        rw [setCache, alookup_kvSet_ne _ _ _ _ (hdiff b₂ hb₂)]
        exact hmiss b₂ (by simp [hb₂])
      obtain ⟨ih1, ih2, ih3, ih4, ih5⟩ := ih
        { cache := setCache now st.cache (videoDetailsChunkKey b)
            (upstream (sortStrings b)) videosCacheTTL
          usage := trackAPIUsage now "videos" today st.usage
          calls := st.calls ++ [sortStrings b] } hnd₂ hmiss₂
      refine ⟨?_, ?_, ?_, ?_, ?_⟩
      · rw [hstep]
        simp only [List.map_cons, concatAll]
        rw [ih1]
      · rw [hstep]
        simp only at ih2 ⊢
        rw [ih2]
        simp [List.map_cons]
      · rw [hstep]
        simp only at ih3 ⊢
        rw [ih3]
        simp only [List.length_cons, trackRepeat]
      · intro b₂ hb₂
        rcases List.mem_cons.mp hb₂ with hb₂ | hb₂
        · subst hb₂
          rw [hstep]
          simp only
          rw [ih5 (videoDetailsChunkKey b₂) (fun b₃ hb₃ =>
            (hdiff b₃ hb₃).symm)]
          simp only [setCache]
          exact alookup_kvSet_self _ _ _
        · rw [hstep]
          simp only
          exact ih4 b₂ hb₂
      · intro k hk
        rw [hstep]
        simp only
        rw [ih5 k (fun b₂ hb₂ => hk b₂ (by simp [hb₂]))]
        simp only [setCache]
        exact alookup_kvSet_ne _ _ _ _ (hk b (by simp))

/-- C8: for a nonempty id list whose chunk fingerprints are distinct and all
absent from the cache, getVideoDetails issues one upstream call per chunk in
order (each carrying the chunk ids, sorted, since batch.sort mutates the
batch), caches each response under the fingerprint of its own chunk with the
videos TTL, records one videos quota charge per chunk, and returns the
concatenation of the chunk responses; the chunks partition the ids in order,
each chunk carrying at most 50 ids. -/
theorem C8_video_details_chunking (upstream : List String → List String)
    (now : Nat) (today : String) (videoIds : List String) (st : ApiState)
    (hne : videoIds ≠ [])
    (hnodup : ((chunksOf 49 videoIds).map videoDetailsChunkKey).Nodup)
    (hmiss : ∀ b ∈ chunksOf 49 videoIds,
      alookup (videoDetailsChunkKey b) st.cache = none) :
    (getVideoDetails upstream now today videoIds st).1 =
        concatAll ((chunksOf 49 videoIds).map
          (fun b => upstream (sortStrings b))) ∧
      (getVideoDetails upstream now today videoIds st).2.calls =
        st.calls ++ (chunksOf 49 videoIds).map sortStrings ∧
      (getVideoDetails upstream now today videoIds st).2.usage =
        trackRepeat now "videos" today (chunksOf 49 videoIds).length
          st.usage ∧
      (∀ b ∈ chunksOf 49 videoIds,
        alookup (videoDetailsChunkKey b)
            (getVideoDetails upstream now today videoIds st).2.cache =
          some { data := upstream (sortStrings b), cachedAt := now,
                 expiresAt := now + videosCacheTTL }) ∧
      concatAll (chunksOf 49 videoIds) = videoIds ∧
      (∀ b ∈ chunksOf 49 videoIds, b.length ≤ 50 ∧ b ≠ []) := by
  have hunf : getVideoDetails upstream now today videoIds st =
      processBatches upstream now today (chunksOf 49 videoIds) st := by
    simp [getVideoDetails, hne]
  obtain ⟨h1, h2, h3, h4, h5⟩ :=
    processBatches_spec upstream now today (chunksOf 49 videoIds) st
      hnodup hmiss
  rw [hunf]
  exact ⟨h1, h2, h3, h4, chunksOf_concat 49 videoIds,
    fun b hb => by
      have := chunksOf_bounds 49 videoIds b hb
      exact ⟨by omega, this.2⟩⟩

/-- Zero-padded three-digit rendering, keeping the witness ids in
lexicographic order. -/
def pad3 (n : Nat) : String :=
  (if n < 10 then "00" else if n < 100 then "0" else "") ++ toString n

/-- 120 distinct video ids in lexicographic order. -/
def c8ids : List String := (List.range 120).map (fun i => "v" ++ pad3 i)

/-- The upstream oracle of the C8 witness: echoes the requested ids as the
response items. -/
def c8upstream (batch : List String) : List String := batch

/-- The empty gateway state. -/
def c8st0 : ApiState := { cache := [], usage := [], calls := [] }

set_option maxRecDepth 100000 in
/-- Witness for C8: 120 ids with nothing cached produce exactly three
upstream calls carrying 50, 50 and 20 ids, and the returned items are the
concatenation of the three chunk responses, here the 120 ids themselves. -/
theorem C8_witness :
    ((getVideoDetails c8upstream 0 "2026-10-11" c8ids c8st0).2.calls).map
        List.length = [50, 50, 20] ∧
      (getVideoDetails c8upstream 0 "2026-10-11" c8ids c8st0).1 = c8ids := by
  have h := C8_video_details_chunking c8upstream 0 "2026-10-11" c8ids c8st0
    (by decide) (by decide) (fun b hb => rfl)
  refine ⟨?_, ?_⟩
  · rw [h.2.1]
    decide
  · rw [h.1]
    decide

/-- C10: calling getVideoDetails with an empty id list returns the empty
item list at once and leaves the whole state — cache, quota record and the
trace of upstream calls — unchanged. -/
theorem C10_empty_ids_noop (upstream : List String → List String) (now : Nat)
    (today : String) (st : ApiState) :
    getVideoDetails upstream now today [] st = ([], st) := rfl

/-- A video list response as batchGetChannelVideos handles it: the items
plus the pageInfo counters (youtube-api.ts lines 36-57, 293). -/
structure VideoResponse where
  items : List String
  totalResults : Nat
  resultsPerPage : Nat
deriving Repr, DecidableEq

/-- The fallback written for a failing channel (youtube-api.ts line 293):
empty items, zeroed pageInfo. -/
def emptyVideoResponse : VideoResponse :=
  { items := [], totalResults := 0, resultsPerPage := 0 }

/-- The per-channel try/catch of batchGetChannelVideos (youtube-api.ts
lines 280-295): a failing single-channel fetch degrades to the empty
result.  The single-channel fetch getChannelVideos is abstracted as the
oracle fetchOne. -/
def resolveChannel (fetchOne : String → Except JsError VideoResponse)
    (cid : String) : VideoResponse :=
  match fetchOne cid with
  | .ok v => v
  | .error _ => emptyVideoResponse

/-- The batch loop of batchGetChannelVideos (youtube-api.ts lines 279-307):
each batch of channels resolves in order and the results map collects every
channel. -/
def batchRun (fetchOne : String → Except JsError VideoResponse) :
    List (List String) → List (String × VideoResponse) →
      List (String × VideoResponse)
  | [], acc => acc
  | batch :: rest, acc =>
      batchRun fetchOne rest
        (acc ++ batch.map (fun cid => (cid, resolveChannel fetchOne cid)))

/-- batchGetChannelVideos (youtube-api.ts lines 263-310): channels processed
in slices of 5; the result association list models the returned Map (the
oracle is deterministic, so first and last binding of a duplicated channel
agree). -/
def batchGetChannelVideos (fetchOne : String → Except JsError VideoResponse)
    (channelIds : List String) : List (String × VideoResponse) :=
  batchRun fetchOne (chunksOf 4 channelIds) []

theorem batchRun_eq (fetchOne : String → Except JsError VideoResponse) :
    ∀ (batches : List (List String)) (acc : List (String × VideoResponse)),
      batchRun fetchOne batches acc =
        acc ++ (concatAll batches).map
          (fun cid => (cid, resolveChannel fetchOne cid)) := by
  intro batches
  induction batches with
  | nil => intro acc; simp [batchRun, concatAll]
  | cons b bs ih =>
      intro acc
      rw [batchRun, ih]
      simp [concatAll, List.map_append]

theorem alookup_map_self {γ : Type} (g : String → γ) :
    ∀ (ids : List String) (cid : String), cid ∈ ids →
      alookup cid (ids.map (fun c => (c, g c))) = some (g cid) := by
  intro ids
  induction ids with
  | nil => intro cid h; cases h
  | cons c r ih =>
      intro cid h
      by_cases hc : cid = c
      · subst hc
        simp [alookup]
      · have : cid ∈ r := by
          rcases List.mem_cons.mp h with h₂ | h₂
          · exact absurd h₂ hc
          · exact h₂
        simp only [List.map_cons, alookup, hc, if_false]
        exact ih cid this

/-- C9: the map returned by the multi-channel batch operation holds an entry
for every requested channel id; a channel whose single-channel fetch raises
an error maps to the empty result (zero items), and every other channel maps
to exactly what its fetch returned — one failure never suppresses the other
entries. -/
theorem C9_batch_partial_failure
    (fetchOne : String → Except JsError VideoResponse)
    (channelIds : List String) (cid : String) (hmem : cid ∈ channelIds) :
    alookup cid (batchGetChannelVideos fetchOne channelIds) =
        some (resolveChannel fetchOne cid) ∧
      (∀ e, fetchOne cid = .error e →
        resolveChannel fetchOne cid = emptyVideoResponse) ∧
      (∀ v, fetchOne cid = .ok v → resolveChannel fetchOne cid = v) := by
  refine ⟨?_, ?_, ?_⟩
  · rw [batchGetChannelVideos, batchRun_eq]
    simp only [List.nil_append]
    rw [chunksOf_concat]
    exact alookup_map_self _ channelIds cid hmem
  · intro e he
    simp [resolveChannel, he]
  · intro v hv
    simp [resolveChannel, hv]

/-- The oracle of the C9 witness: the channel bad fails, every other channel
returns one item. -/
def c9fetch (cid : String) : Except JsError VideoResponse :=
  if cid = "bad" then .error { message := "boom" }
  else .ok { items := ["v-" ++ cid], totalResults := 1, resultsPerPage := 1 }

/-- Witness for C9: in the batch a, bad, c the failing channel maps to the
empty result while channel a still maps to its non-empty result. -/
theorem C9_witness :
    alookup "bad" (batchGetChannelVideos c9fetch ["a", "bad", "c"]) =
        some emptyVideoResponse ∧
      alookup "a" (batchGetChannelVideos c9fetch ["a", "bad", "c"]) =
        some { items := ["v-a"], totalResults := 1, resultsPerPage := 1 } := by
  constructor
  · rw [(C9_batch_partial_failure c9fetch ["a", "bad", "c"] "bad"
      (by decide)).1]
    rfl
  · rw [(C9_batch_partial_failure c9fetch ["a", "bad", "c"] "a"
      (by decide)).1]
    rfl

end Contented
